import Mathlib

/-!
# Verification of the fluxflow exchange-flow tracker

Shallow embedding of the core of the `2ndtlmining/fluxflow` repository:
the block ingestion pipeline (`src/lib/services/Blocksyncservice.js`),
the classification store (`DatabaseService`), and the wallet enhancement
engine (`src/lib/services/walletEnhancementService.js`), together with
proofs and refutations of the stated properties.

Conventions of the embedding:
* JavaScript values stored in JSON detail columns are modelled by the
  `Json` inductive below; the external `JSON.stringify`/`JSON.parse` pair
  is the identity on such trees, so columns hold `Option Json`
  (`none` = SQL `NULL`).
* JavaScript truthiness (`x ? a : b`) is modelled by `Json.truthy`.
* Machine integers are `Nat`/`Int` (block heights, timestamps); FLUX
  amounts are exact rationals (`Rat`), the source divides satoshi values
  by `10^8`.
* HTTP-backed lookups (the indexer, the node registry) are oracles passed
  in as functions; the code under proof is everything the service computes
  from their answers.
-/

/-- A JSON value, as produced by the upstream indexer and stored in the
`from_details` / `to_details` / `hop_chain` TEXT columns. -/
inductive Json where
  | null : Json
  | bool : Bool → Json
  | num : Int → Json
  | str : String → Json
  | arr : List Json → Json
  | obj : List (String × Json) → Json

/-- JavaScript truthiness of a JSON value: `null`, `false`, `0` and `""`
are falsy; arrays and objects (even empty) are truthy. -/
def Json.truthy : Json → Bool
  | .null => false
  | .bool b => b
  | .num n => n != 0
  | .str s => s ≠ ""
  | .arr _ => true
  | .obj _ => true

/-! ## Block ingestion pipeline (`Blocksyncservice.js`) -/

/-- Result of `classificationService.classifyAddress`: a type string
(`exchange` / `foundation` / `node_operator` / `unknown`) plus side-car
details. The side-car fields default to the empty value when the source
object does not carry them. -/
structure ClassResult where
  type : String
  name : String := ""
  logo : String := ""
  nodeCount : Nat := 0
  tiers : Json := Json.null

/-- A transaction input as normalized by the indexer client
(`vin[].addresses`). -/
structure TxInput where
  addresses : List String
deriving DecidableEq, Repr

/-- A transaction output as normalized by the indexer client
(`vout[].addresses`, `vout[].value` in satoshis). -/
structure TxOutput where
  addresses : List String
  value : Nat
deriving DecidableEq, Repr

/-- A normalized transaction (`{txid, vin[], vout[]}`). The source guards
`if (!tx.vin || !tx.vout) return []`; normalized transactions always carry
both arrays, so they are total lists here. -/
structure Tx where
  txid : String
  vin : List TxInput
  vout : List TxOutput
deriving DecidableEq, Repr

/-- `classifyFlow(fromType, toType)` from `Blocksyncservice.js`:
selling when moving to an exchange from a non-exchange, buying when moving
from an exchange to a non-exchange, p2p otherwise. -/
def classifyFlow (fromType toType : String) : String :=
  let fromIsExchange := fromType == "exchange"
  let toIsExchange := toType == "exchange"
  if toIsExchange && !fromIsExchange then "selling"
  else if fromIsExchange && !toIsExchange then "buying"
  else "p2p"

/-- A flow event as constructed by `processTransaction` and handed to the
store. `Json.null` plays the role of the JavaScript `null` details. -/
structure FlowEvent where
  txid : String
  vout : Nat
  blockHeight : Nat
  blockTime : Nat
  fromAddress : String
  fromType : String
  fromDetails : Json
  toAddress : String
  toType : String
  toDetails : Json
  flowType : String
  amount : Rat

/-- The detail payload the pipeline attaches to a classified address:
`{name, logo}` for exchanges, `{nodeCount, tiers}` for node operators,
`{name}` for the foundation, `null` for unknown (per both the
primary-input branch and the per-output branch of `processTransaction`). -/
def classDetails (c : ClassResult) : Json :=
  if c.type == "exchange" then Json.obj [("name", Json.str c.name), ("logo", Json.str c.logo)]
  else if c.type == "node_operator" then
    Json.obj [("nodeCount", Json.num c.nodeCount), ("tiers", c.tiers)]
  else if c.type == "foundation" then Json.obj [("name", Json.str c.name)]
  else Json.null

/-- All input addresses of a transaction, in order
(`inputAddresses.push(...input.addresses)` over `tx.vin`). -/
def inputAddressesOf (tx : Tx) : List String :=
  tx.vin.flatMap (fun i => i.addresses)

/-- JavaScript `inputAddresses[0] || 'unknown'`: the first input address,
or the literal string `unknown` when there is none (or it is the falsy
empty string). -/
def firstAddressOr (xs : List String) : String :=
  match xs with
  | [] => "unknown"
  | a :: _ => if a == "" then "unknown" else a

/-- The primary input identity chosen by `processTransaction`: priority
`exchange > node_operator > foundation > unknown` over all input
classifications; returns `(type, details, address)`. -/
def primaryInput (classify : String → ClassResult) (tx : Tx) : String × Json × String :=
  let inputAddresses := inputAddressesOf tx
  let inputClassifications := inputAddresses.map (fun a => (a, classify a))
  match inputClassifications.find? (fun p => p.2.type == "exchange") with
  | some p => ("exchange", classDetails p.2, p.1)
  | none =>
    match inputClassifications.find? (fun p => p.2.type == "node_operator") with
    | some p => ("node_operator", classDetails p.2, p.1)
    | none =>
      match inputClassifications.find? (fun p => p.2.type == "foundation") with
      | some p => ("foundation", classDetails p.2, p.1)
      | none => ("unknown", Json.null, firstAddressOr inputAddresses)

/-- `processTransaction(tx, blockHeight, blockTime, classifier)` from
`Blocksyncservice.js`: one flow event per output that carries an address,
with the primary-input identity on the source side, the per-output
classification on the destination side, `flow_type` from `classifyFlow`,
and `amount = vout.value / 10^8`. -/
def processTransaction (classify : String → ClassResult) (tx : Tx)
    (blockHeight blockTime : Nat) : List FlowEvent :=
  let p := primaryInput classify tx
  tx.vout.enum.filterMap fun iv =>
    if iv.2.addresses.isEmpty then none
    else
      let outputAddress := iv.2.addresses.headD ""
      let outputClassification := classify outputAddress
      some
        { txid := tx.txid
          vout := iv.1
          blockHeight := blockHeight
          blockTime := blockTime
          fromAddress := p.2.2
          fromType := p.1
          fromDetails := p.2.1
          toAddress := outputAddress
          toType := outputClassification.type
          toDetails := classDetails outputClassification
          flowType := classifyFlow p.1 outputClassification.type
          amount := (iv.2.value : Rat) / 100000000 }

/-! ## Classification store (`DatabaseService`, second half of the
`config.js` source document)

The `flow_events` table of the SQLite schema, one record per row. TEXT
columns holding JSON are `Option Json` (`none` = SQL `NULL`); the external
`JSON.stringify`/`JSON.parse` pair round-trips such trees, so serialization
is the identity on the `Json` AST. -/

structure FlowRow where
  id : Nat
  txid : String
  vout : Nat
  block_height : Nat
  block_time : Nat
  from_address : String
  from_type : String
  from_details : Option Json
  to_address : String
  to_type : String
  to_details : Option Json
  flow_type : String
  amount : Rat
  classification_level : Nat
  intermediary_wallet : Option String
  analysis_timestamp : Option Nat
  data_source : String
  hop_chain : Option Json

/-- The persistent state owned by the store: the `flow_events` rows plus
the AUTOINCREMENT counter for `id`. -/
structure DB where
  rows : List FlowRow
  nextId : Nat

def DB.empty : DB := { rows := [], nextId := 1 }

/-- JavaScript `x ? JSON.stringify(x) : null` applied to a detail value:
a falsy value (including `null`) is stored as SQL `NULL`. -/
def storeDetails (j : Json) : Option Json :=
  if j.truthy then some j else none

/-- Reading a JSON detail column back
(`event.fromDetails ? JSON.parse(event.fromDetails) : null`). -/
def readDetails : Option Json → Json
  | none => Json.null
  | some j => j

/-- The row inserted for a pipeline flow event by `saveFlowEventsBatch`:
the twelve bound columns, with every enhancement column at its schema
default (`classification_level 0`, `data_source 'sync'`, NULLs). -/
def rowOfEvent (id : Nat) (e : FlowEvent) : FlowRow :=
  { id := id
    txid := e.txid
    vout := e.vout
    block_height := e.blockHeight
    block_time := e.blockTime
    from_address := e.fromAddress
    from_type := e.fromType
    from_details := storeDetails e.fromDetails
    to_address := e.toAddress
    to_type := e.toType
    to_details := storeDetails e.toDetails
    flow_type := e.flowType
    amount := e.amount
    classification_level := 0
    intermediary_wallet := none
    analysis_timestamp := none
    data_source := "sync"
    hop_chain := none }

/-- `INSERT OR REPLACE INTO flow_events ...`: any row conflicting on the
`UNIQUE(txid, vout)` constraint is deleted, then the new row is inserted
with a fresh AUTOINCREMENT id. -/
def insertOrReplaceFlowEvent (db : DB) (e : FlowEvent) : DB :=
  { rows := db.rows.filter (fun r => !(r.txid == e.txid && r.vout == e.vout))
      ++ [rowOfEvent db.nextId e]
    nextId := db.nextId + 1 }

/-- Running a list of inserts in order where each single insert may raise
(SQLite raises e.g. on a constraint violation); the first error aborts the
rest, as a thrown JavaScript exception does. -/
def insertAll (ins : DB → FlowEvent → Except String DB) :
    DB → List FlowEvent → Except String DB
  | db, [] => .ok db
  | db, e :: rest =>
    match ins db e with
    | .ok db' => insertAll ins db' rest
    | .error msg => .error msg

/-- `saveFlowEventsBatch(flowEvents)`: early-returns on an empty batch,
otherwise runs every insert inside one `better-sqlite3` transaction, whose
documented semantics are: commit if the wrapped function returns, roll the
whole transaction back if it throws. The result is the resulting state
paired with the raised error, if any; on error the state is the caller's
unchanged state (rollback). Parameterized over the single-insert step so
the atomicity contract covers raising inserts. -/
def saveFlowEventsBatch (ins : DB → FlowEvent → Except String DB)
    (db : DB) (flowEvents : List FlowEvent) : DB × Option String :=
  if flowEvents.isEmpty then (db, none)
  else
    match insertAll ins db flowEvents with
    | .ok db' => (db', none)
    | .error msg => (db, some msg)

/-- The concrete single-insert step used by the repository (a plain
`INSERT OR REPLACE`, which does not raise on well-formed rows). -/
def insertStep (db : DB) (e : FlowEvent) : Except String DB :=
  .ok (insertOrReplaceFlowEvent db e)

/-- The comparison realizing `ORDER BY block_height DESC, id DESC`. -/
def byHeightIdDesc (a b : FlowRow) : Bool :=
  if a.block_height == b.block_height then b.id ≤ a.id
  else b.block_height ≤ a.block_height

/-- What `getFlowEvents` returns per row: the stored columns with the JSON
detail columns parsed back (`fromDetails ? JSON.parse(fromDetails) : null`).
Projected back onto the pipeline's event shape. -/
def eventOfRow (r : FlowRow) : FlowEvent :=
  { txid := r.txid
    vout := r.vout
    blockHeight := r.block_height
    blockTime := r.block_time
    fromAddress := r.from_address
    fromType := r.from_type
    fromDetails := readDetails r.from_details
    toAddress := r.to_address
    toType := r.to_type
    toDetails := readDetails r.to_details
    flowType := r.flow_type
    amount := r.amount }

/-- `getFlowEvents(startBlock, endBlock)`: rows with
`block_height BETWEEN startBlock AND endBlock`,
`ORDER BY block_height DESC, id DESC`, JSON detail columns parsed. -/
def getFlowEvents (db : DB) (startBlock endBlock : Nat) : List FlowRow :=
  (db.rows.filter
      (fun r => startBlock ≤ r.block_height && r.block_height ≤ endBlock)).mergeSort
    byHeightIdDesc

/-- SQL `analysis_timestamp IS NULL OR analysis_timestamp < cutoff`. -/
def tsBeforeCutoff (ts : Option Nat) (cutoff : Int) : Bool :=
  match ts with
  | none => true
  | some t => (t : Int) < cutoff

/-- The buys-side WHERE clause of `getUnknownWallets`. -/
def unknownBuyPred (cutoff : Int) (r : FlowRow) : Bool :=
  r.flow_type == "buying" && r.to_type == "unknown" &&
    r.classification_level == 0 && tsBeforeCutoff r.analysis_timestamp cutoff

/-- The sells-side WHERE clause of `getUnknownWallets`. -/
def unknownSellPred (cutoff : Int) (r : FlowRow) : Bool :=
  r.flow_type == "selling" && r.from_type == "unknown" &&
    r.classification_level == 0 && tsBeforeCutoff r.analysis_timestamp cutoff

/-- The comparison realizing `ORDER BY block_height DESC` (SQLite may order
equal heights arbitrarily; a stable merge sort picks one such order). -/
def byHeightDesc (a b : FlowRow) : Bool :=
  b.block_height ≤ a.block_height

structure UnknownWallets where
  buys : List FlowRow
  sells : List FlowRow
  total : Nat

/-- `getUnknownWallets()`: cooldown cutoff from
`(FLUX_CONFIG.ENHANCEMENT.FAILED_RETRY_HOURS || 24) * 3600` (the key is
absent from the committed config, so the `24` default applies); each side
filters level-0 unknown events of its flow type outside the cooldown,
`ORDER BY block_height DESC LIMIT 1000`. -/
def getUnknownWallets (db : DB) (now : Nat) (failedRetryHours : Option Nat) :
    UnknownWallets :=
  let retryAfterSeconds := (failedRetryHours.getD 24) * 3600
  let cutoff : Int := (now : Int) - retryAfterSeconds
  let buys := ((db.rows.filter (unknownBuyPred cutoff)).mergeSort byHeightDesc).take 1000
  let sells := ((db.rows.filter (unknownSellPred cutoff)).mergeSort byHeightDesc).take 1000
  { buys := buys, sells := sells, total := buys.length + sells.length }

/-- A partial update for `updateFlowEventClassification(id, updates)`: a
field is `none` when the JavaScript property is `undefined` (absent from
the patch; the source tests `!== undefined`). A present `hopChain` /
`fromDetails` / `toDetails` value passes through the
`value ? JSON.stringify(value) : null` gate, so its payload is a `Json`
(with `Json.null` for the JavaScript `null`). A present
`intermediaryWallet` / `analysisTimestamp` may itself be SQL `NULL`. -/
structure FlowPatch where
  classificationLevel : Option Nat := none
  intermediaryWallet : Option (Option String) := none
  hopChain : Option Json := none
  analysisTimestamp : Option (Option Nat) := none
  dataSource : Option String := none
  fromType : Option String := none
  fromDetails : Option Json := none
  toType : Option String := none
  toDetails : Option Json := none

/-- `setParts.length === 0`: no recognized field is present. -/
def FlowPatch.isEmpty (p : FlowPatch) : Bool :=
  p.classificationLevel.isNone && p.intermediaryWallet.isNone && p.hopChain.isNone &&
    p.analysisTimestamp.isNone && p.dataSource.isNone && p.fromType.isNone &&
    p.fromDetails.isNone && p.toType.isNone && p.toDetails.isNone

/-- The effect of the generated `UPDATE flow_events SET ... WHERE id = ?`
on the targeted row: present fields overwrite, absent fields are kept. -/
def applyPatch (p : FlowPatch) (r : FlowRow) : FlowRow :=
  { r with
    classification_level := p.classificationLevel.getD r.classification_level
    intermediary_wallet := p.intermediaryWallet.getD r.intermediary_wallet
    hop_chain := match p.hopChain with
      | some v => storeDetails v
      | none => r.hop_chain
    analysis_timestamp := p.analysisTimestamp.getD r.analysis_timestamp
    data_source := p.dataSource.getD r.data_source
    from_type := p.fromType.getD r.from_type
    from_details := match p.fromDetails with
      | some v => storeDetails v
      | none => r.from_details
    to_type := p.toType.getD r.to_type
    to_details := match p.toDetails with
      | some v => storeDetails v
      | none => r.to_details }

/-- `updateFlowEventClassification(id, updates)`: throws
`No updates provided` on an empty patch, otherwise updates the row whose
primary key matches `id`. -/
def updateFlowEventClassification (db : DB) (id : Nat) (p : FlowPatch) :
    Except String DB :=
  if p.isEmpty then .error "No updates provided"
  else .ok { db with rows := db.rows.map (fun r => if r.id == id then applyPatch p r else r) }

/-! ## Wallet enhancement engine (`walletEnhancementService.js`) -/

/-- Result shape of `checkCoinbaseTransactions(wallet, fromBlock, toBlock)`. -/
structure CoinbaseResult where
  hasCoinbase : Bool
  count : Nat := 0
  lastBlock : Nat := 0
  daysInactive : Nat := 0

/-- Result shape of `checkHistoricalConnections` (outbound) and
`checkHistoricalConnectionsInbound`. -/
structure ConnResult where
  found : Bool
  method : String := ""
  nodeWallet : String := ""
  txid : String := ""
  blockHeight : Nat := 0
  daysAgo : Nat := 0
  coinbaseCount : Option Nat := none
  coinbaseLastBlock : Option Nat := none

/-- The single transaction returned by `getNextTransactionFromWallet` /
`getPreviousTransactionToWallet` (an object, never an array). -/
structure HopTx where
  txid : String
  fromAddress : String
  toAddress : String
  blockHeight : Nat
  amount : Rat

/-- The engine's view of the outside world: the classifier's node-operator
set and the four HTTP-backed (cached) lookups, as pure oracles.
`nodeDetails` is `getNodeDetails` (node count and tier breakdown for a
current operator). -/
structure ChainView where
  isNodeOp : String → Bool
  nodeDetails : String → Option (Nat × Json)
  coinbase : String → Nat → Nat → CoinbaseResult
  histConnOut : String → Nat → ConnResult
  histConnIn : String → Nat → ConnResult
  nextTxFrom : String → Nat → Nat → Option HopTx
  prevTxTo : String → Nat → Nat → Option HopTx

/-- The enhancement configuration keys the engine reads
(`FLUX_CONFIG.ENHANCEMENT.HISTORICAL_DETECTION.*`,
`...HISTORICAL_CONNECTIONS.ENABLED`). -/
structure EnhConfig where
  historicalEnabled : Bool
  historicalConnectionsEnabled : Bool
  historicalWindow : Nat

/-- A BFS queue entry of `analyzeMultiHop`:
`{wallet, depth, chain, txids}`. -/
structure QueueEntry where
  wallet : String
  depth : Nat
  chain : List String
  txids : List String

/-- The hit object returned by `analyzeMultiHop`. -/
structure MHResult where
  level : Nat
  chain : List String
  nodeWallet : String
  txids : List String
  detectionMethod : String
  status : String
  lastCoinbaseBlock : Option Nat := none
  coinbaseCount : Option Nat := none
  daysInactive : Option Nat := none

/-- Traversal direction: `outbound` for buys, `inbound` for sells. -/
inductive Dir where
  | outbound
  | inbound

/-- Result of one whole BFS traversal: the hit (if any), plus the
observable counters: `explored` records the wallet of every dequeued entry
(the source's `nodesExplored` counter and per-hop log line) and `circular`
is the number of `stats.circularDetections` increments. -/
structure BfsOutcome where
  result : Option MHResult
  explored : List String
  circular : Nat
  visited : List String

/-- The direction-dependent fetch of the expansion step: the wallet's next
`sent` transaction strictly after the event (`outbound`, for buys) or its
most recent `received` transaction strictly before it (`inbound`, for
sells). -/
def hopFetch (cv : ChainView) (direction : Dir) (wallet : String)
    (startBlockHeight startTimestamp : Nat) : Option HopTx :=
  match direction with
  | .outbound => cv.nextTxFrom wallet startBlockHeight startTimestamp
  | .inbound => cv.prevTxTo wallet startBlockHeight startTimestamp

/-- The counterparty of a hop transaction: the first output address other
than self for buys (already extracted into `toAddress` by the fetcher),
the first input address other than self for sells (`fromAddress`). -/
def hopCounterparty (direction : Dir) (tx : HopTx) : String :=
  match direction with
  | .outbound => tx.toAddress
  | .inbound => tx.fromAddress

/-- The `while (queue.length > 0)` loop of `analyzeMultiHop`, one step per
fuel unit (the source loop terminates because each dequeue enqueues at
most one strictly deeper entry; `fuel` makes that explicit, and every
theorem below holds for every fuel). Per dequeued entry: skip if at max
depth; fetch the single next (`outbound`) or previous (`inbound`)
counterparty transaction — the fetchers return one object or `null`, so
the `Array.isArray` branch with its `MAX_BRANCHES` slice never fires —
then: circular skip if the counterparty is visited, hit on the current
node API, hit on historical coinbase when enabled, else enqueue the
counterparty one level deeper (marking it visited) when still below max
depth. The Nat-clamped `startBlockHeight - historicalWindow` agrees with
the source's possibly-negative lower bound: both are vacuous below 0. -/
def bfsLoop (cv : ChainView) (cfg : EnhConfig) (direction : Dir)
    (startBlockHeight startTimestamp maxDepth : Nat) :
    Nat → List QueueEntry → List String → List String → Nat → Option BfsOutcome
  | 0, _, _, _, _ => none
  | fuel + 1, queue, visited, explored, circular =>
    match queue with
    | [] => some { result := none, explored := explored, circular := circular, visited := visited }
    | current :: queueRest =>
      let explored' := explored ++ [current.wallet]
      if maxDepth ≤ current.depth then
        bfsLoop cv cfg direction startBlockHeight startTimestamp maxDepth
          fuel queueRest visited explored' circular
      else
        match hopFetch cv direction current.wallet startBlockHeight startTimestamp with
        | none =>
          bfsLoop cv cfg direction startBlockHeight startTimestamp maxDepth
            fuel queueRest visited explored' circular
        | some tx =>
          let nextWallet := hopCounterparty direction tx
          if visited.contains nextWallet then
            bfsLoop cv cfg direction startBlockHeight startTimestamp maxDepth
              fuel queueRest visited explored' (circular + 1)
          else if cv.isNodeOp nextWallet then
            let res : MHResult :=
              { level := current.depth + 1
                chain := current.chain ++ [current.wallet]
                nodeWallet := nextWallet
                txids := current.txids ++ [tx.txid]
                detectionMethod := "current_api"
                status := "active" }
            some { result := some res, explored := explored',
                   circular := circular, visited := visited }
          else
            let historical :=
              cv.coinbase nextWallet (startBlockHeight - cfg.historicalWindow) startBlockHeight
            if cfg.historicalEnabled && historical.hasCoinbase then
              let res : MHResult :=
                { level := current.depth + 1
                  chain := current.chain ++ [current.wallet]
                  nodeWallet := nextWallet
                  txids := current.txids ++ [tx.txid]
                  detectionMethod := "historical_coinbase"
                  status := "historical"
                  lastCoinbaseBlock := some historical.lastBlock
                  coinbaseCount := some historical.count
                  daysInactive := some historical.daysInactive }
              some { result := some res, explored := explored',
                     circular := circular, visited := visited }
            else if current.depth + 1 < maxDepth then
              let entry : QueueEntry :=
                { wallet := nextWallet
                  depth := current.depth + 1
                  chain := current.chain ++ [current.wallet]
                  txids := current.txids ++ [tx.txid] }
              bfsLoop cv cfg direction startBlockHeight startTimestamp maxDepth
                fuel (queueRest ++ [entry]) (visited ++ [nextWallet]) explored' circular
            else
              bfsLoop cv cfg direction startBlockHeight startTimestamp maxDepth
                fuel queueRest visited explored' circular

/-- `analyzeMultiHop({startWallet, direction, startBlockHeight,
startTimestamp, maxDepth, visitedWallets})`: the loop above, seeded with
`{wallet: startWallet, depth: 0, chain: [], txids: []}`. -/
def analyzeMultiHop (cv : ChainView) (cfg : EnhConfig) (startWallet : String)
    (direction : Dir) (startBlockHeight startTimestamp maxDepth fuel : Nat)
    (visitedWallets : List String) : Option BfsOutcome :=
  bfsLoop cv cfg direction startBlockHeight startTimestamp maxDepth fuel
    [{ wallet := startWallet, depth := 0, chain := [], txids := [] }]
    visitedWallets [] 0

/-- An `Option Nat` rendered as a JSON field value (`undefined`-free shape
of the detail objects the engine assembles). -/
def jnum? : Option Nat → Json
  | none => Json.null
  | some n => Json.num n

/-- The detail object assembled by `updateFlowEventToMultiHop`:
`{nodeWallet, detectedAt, hopCount, intermediaryTxids, detectionMethod,
status}` plus the historical-coinbase fields when the hit came from the
historical lane, plus `{nodeCount, tiers}` when the node wallet is a
current operator. -/
def multiHopDetails (cv : ChainView) (now : Nat) (res : MHResult) : Json :=
  Json.obj
    ([("nodeWallet", Json.str res.nodeWallet),
      ("detectedAt", Json.num now),
      ("hopCount", Json.num res.level),
      ("intermediaryTxids", Json.arr (res.txids.map Json.str)),
      ("detectionMethod", Json.str res.detectionMethod),
      ("status", Json.str res.status)]
      ++ (if res.detectionMethod == "historical_coinbase" then
            [("lastCoinbaseBlock", jnum? res.lastCoinbaseBlock),
             ("coinbaseCount", jnum? res.coinbaseCount),
             ("daysInactive", jnum? res.daysInactive)]
          else [])
      ++ (match cv.nodeDetails res.nodeWallet with
          | some nd => [("nodeCount", Json.num nd.1), ("tiers", nd.2)]
          | none => []))

/-- The patch `updateFlowEventToMultiHop` submits: level, hop chain as a
JSON array, `intermediary_wallet = hopChain[0]` (a JavaScript `undefined`
— and hence an absent field — were the chain empty), timestamp, source,
and the event side matching the flow type rewritten to the new type with
the detail object above. -/
def multiHopPatch (cv : ChainView) (now : Nat) (flowType newType : String)
    (res : MHResult) : FlowPatch :=
  let details := multiHopDetails cv now res
  let base : FlowPatch :=
    { classificationLevel := some res.level
      hopChain := some (Json.arr (res.chain.map Json.str))
      intermediaryWallet := res.chain.head?.map some
      analysisTimestamp := some (some now)
      dataSource := some "enhanced" }
  if flowType == "buying" then { base with toType := some newType, toDetails := some details }
  else if flowType == "selling" then
    { base with fromType := some newType, fromDetails := some details }
  else base

/-- `updateFlowEventToMultiHop(params)`: one
`updateFlowEventClassification` call with the patch above. -/
def updateFlowEventToMultiHop (cv : ChainView) (now : Nat) (db : DB) (id : Nat)
    (flowType newType : String) (res : MHResult) : Except String DB :=
  updateFlowEventClassification db id (multiHopPatch cv now flowType newType res)

/-- The patch `updateFlowEventToHistorical` submits for a Level-0 coinbase
hit on the observed wallet: level 0, `hop_chain`/`intermediary_wallet`
cleared, timestamp, source `enhanced`, and the matching side rewritten to
`node_operator` with the historical detail object. -/
def historicalPatch (now : Nat) (flowType : String) (nodeWallet : String)
    (historicalData : CoinbaseResult) (level : Nat) : FlowPatch :=
  let details := Json.obj
    [("nodeWallet", Json.str nodeWallet),
     ("detectedAt", Json.num now),
     ("hopCount", Json.num level),
     ("detectionMethod", Json.str "historical_coinbase"),
     ("status", Json.str "historical"),
     ("lastCoinbaseBlock", Json.num historicalData.lastBlock),
     ("coinbaseCount", Json.num historicalData.count),
     ("daysInactive", Json.num historicalData.daysInactive)]
  let base : FlowPatch :=
    { classificationLevel := some level
      hopChain := some Json.null
      intermediaryWallet := some none
      analysisTimestamp := some (some now)
      dataSource := some "enhanced" }
  if flowType == "buying" then
    { base with toType := some "node_operator", toDetails := some details }
  else if flowType == "selling" then
    { base with fromType := some "node_operator", fromDetails := some details }
  else base

/-- The patch `updateFlowEventToHistoricalConnection` submits for a
Level-0 historical-connection hit. -/
def historicalConnectionPatch (cv : ChainView) (now : Nat) (flowType : String)
    (connectionData : ConnResult) (level : Nat) : FlowPatch :=
  let details := Json.obj
    ([("nodeWallet", Json.str connectionData.nodeWallet),
      ("detectedAt", Json.num now),
      ("hopCount", Json.num level),
      ("detectionMethod", Json.str "historical_connection"),
      ("status", Json.str
        (if connectionData.method == "current_node_operator" then "active" else "historical")),
      ("connectionTxid", Json.str connectionData.txid),
      ("connectionBlock", Json.num connectionData.blockHeight),
      ("daysAgo", Json.num connectionData.daysAgo)]
      ++ (match connectionData.coinbaseCount with
          | some c => [("destinationCoinbaseCount", Json.num c),
                       ("destinationLastCoinbase", jnum? connectionData.coinbaseLastBlock)]
          | none => [])
      ++ (match cv.nodeDetails connectionData.nodeWallet with
          | some nd => [("nodeCount", Json.num nd.1), ("tiers", nd.2)]
          | none => []))
  let base : FlowPatch :=
    { classificationLevel := some level
      hopChain := some Json.null
      intermediaryWallet := some none
      analysisTimestamp := some (some now)
      dataSource := some "enhanced" }
  if flowType == "buying" then
    { base with toType := some "node_operator", toDetails := some details }
  else if flowType == "selling" then
    { base with fromType := some "node_operator", fromDetails := some details }
  else base

/-- The enclosing `try/catch` of the per-event analyzers: a thrown store
error is swallowed (only `stats.errors` is bumped), so the database keeps
its prior state on error. -/
def catchDb (db : DB) : Except String DB → DB
  | .ok db' => db'
  | .error _ => db

/-- `analyzeBuyingEventMultiHop(event, maxDepth)`, as a transformer of the
store state. Lane A first (coinbase on the direct wallet, then outbound
historical connections), then the multi-hop BFS; a BFS miss only bumps
`stats.remainedUnknown` and performs no store write. Returns `none` only
when the BFS fuel runs out (the source loop always terminates). -/
def analyzeBuyingEventMultiHop (cv : ChainView) (cfg : EnhConfig) (now : Nat)
    (maxDepth fuel : Nat) (db : DB) (event : FlowRow) : Option DB :=
  let startWallet := event.to_address
  let historical :=
    cv.coinbase startWallet (event.block_height - cfg.historicalWindow) event.block_height
  if cfg.historicalEnabled && historical.hasCoinbase then
    some (catchDb db (updateFlowEventClassification db event.id
      (historicalPatch now "buying" startWallet historical 0)))
  else
    let connection := cv.histConnOut startWallet event.block_height
    if cfg.historicalConnectionsEnabled && connection.found then
      some (catchDb db (updateFlowEventClassification db event.id
        (historicalConnectionPatch cv now "buying" connection 0)))
    else
      match analyzeMultiHop cv cfg startWallet .outbound event.block_height
          event.block_time maxDepth fuel [startWallet] with
      | none => none
      | some o =>
        match o.result with
        | none => some db
        | some res =>
          some (catchDb db (updateFlowEventToMultiHop cv now db event.id
            "buying" "node_operator" res))

/-- `analyzeSellingEventMultiHop(event, maxDepth)`: the selling-side
analog (wallet is `event.from_address`, inbound connections, inbound BFS). -/
def analyzeSellingEventMultiHop (cv : ChainView) (cfg : EnhConfig) (now : Nat)
    (maxDepth fuel : Nat) (db : DB) (event : FlowRow) : Option DB :=
  let startWallet := event.from_address
  let historical :=
    cv.coinbase startWallet (event.block_height - cfg.historicalWindow) event.block_height
  if cfg.historicalEnabled && historical.hasCoinbase then
    some (catchDb db (updateFlowEventClassification db event.id
      (historicalPatch now "selling" startWallet historical 0)))
  else
    let connection := cv.histConnIn startWallet event.block_height
    if cfg.historicalConnectionsEnabled && connection.found then
      some (catchDb db (updateFlowEventClassification db event.id
        (historicalConnectionPatch cv now "selling" connection 0)))
    else
      match analyzeMultiHop cv cfg startWallet .inbound event.block_height
          event.block_time maxDepth fuel [startWallet] with
      | none => none
      | some o =>
        match o.result with
        | none => some db
        | some res =>
          some (catchDb db (updateFlowEventToMultiHop cv now db event.id
            "selling" "node_operator" res))

/-! ## Sync tick decision (`syncLatest` in `Blocksyncservice.js`) -/

/-- `FLUX_CONFIG.PERIODS` exactly as committed in `config.js`: five keys,
each `floor(seconds / 30)`. There is no `6M` key, so
`FLUX_CONFIG.PERIODS['6M']` is the JavaScript `undefined` (`none`). -/
def PERIODS : String → Option Nat := fun k =>
  if k == "24H" then some 2880
  else if k == "7D" then some 20160
  else if k == "30D" then some 86400
  else if k == "90D" then some 259200
  else if k == "1Y" then some 1051200
  else none

/-- JavaScript `a < b` where `b` may be `undefined`: any relational
comparison against `undefined` is `false`. -/
def jsLtUndef (a : Nat) (b : Option Nat) : Bool :=
  match b with
  | some n => decide (a < n)
  | none => false

/-- What a `syncLatest` tick decides to fetch. -/
inductive SyncAction where
  | forward (heights : List Nat)
  | backward (heights : List Nat)
  | idle
deriving DecidableEq, Repr

/-- The branch structure of `syncLatest` after the height probe: sync
forward `[latestSynced+1 .. latestSynced+min(B, gap)]` when behind the
tip; otherwise sync backward
`[max(targetBlock, oldest−B) .. oldest−1]` (descending) when
`stats.blocks < FLUX_CONFIG.PERIODS['6M'] && latestSynced > targetBlock`;
otherwise do nothing. `oldestStored` is `MIN(height)` over stored blocks
(`|| latestSynced` when empty), `targetBlock ≥ 1` per `initialize`. -/
def syncLatestAction (currentBlock latestSynced storedBlocks targetBlock
    oldestStored batchSize : Nat) : SyncAction :=
  let sixMonthBlocks := PERIODS "6M"
  if latestSynced < currentBlock then
    let blocksToSync := currentBlock - latestSynced
    let actualBatch := min batchSize blocksToSync
    let startHeight := latestSynced + 1
    .forward (List.range' startHeight actualBatch)
  else if jsLtUndef storedBlocks sixMonthBlocks && decide (targetBlock < latestSynced) then
    let startHeight := oldestStored - 1
    let endHeight := max targetBlock (startHeight - batchSize + 1)
    .backward ((List.range' endHeight (startHeight + 1 - endHeight)).reverse)
  else .idle

/-! ## Theorems -/

theorem classifyFlow_spec (f t : String) :
    (classifyFlow f t = "buying" ↔ f = "exchange" ∧ t ≠ "exchange") ∧
    (classifyFlow f t = "selling" ↔ t = "exchange" ∧ f ≠ "exchange") ∧
    (classifyFlow f t = "p2p" ↔
      ¬(f = "exchange" ∧ t ≠ "exchange") ∧ ¬(t = "exchange" ∧ f ≠ "exchange")) := by
  unfold classifyFlow
  by_cases hf : f = "exchange" <;> by_cases ht : t = "exchange" <;>
    simp [hf, ht]

theorem mem_processTransaction {classify : String → ClassResult} {tx : Tx}
    {blockHeight blockTime : Nat} {e : FlowEvent}
    (he : e ∈ processTransaction classify tx blockHeight blockTime) :
    e.fromAddress = (primaryInput classify tx).2.2 ∧
    e.fromType = (primaryInput classify tx).1 ∧
    e.toType = (classify e.toAddress).type ∧
    e.flowType = classifyFlow (primaryInput classify tx).1 (classify e.toAddress).type := by
  unfold processTransaction at he
  simp only [List.mem_filterMap] at he
  obtain ⟨iv, hmem, hiv⟩ := he
  by_cases hemp : iv.2.addresses.isEmpty
  · simp [hemp] at hiv
  · simp only [hemp, Bool.false_eq_true, if_false, Option.some.injEq] at hiv
    subst hiv
    exact ⟨rfl, rfl, rfl, rfl⟩

/-- **C1**: for every flow event emitted by `processTransaction`,
`flow_type` is the deterministic function of `(from_type, to_type)`:
`buying` iff the source side is an exchange and the destination is not,
`selling` iff the destination is an exchange and the source is not,
`p2p` in every other case. -/
theorem flowType_deterministic (classify : String → ClassResult) (tx : Tx)
    (blockHeight blockTime : Nat) (e : FlowEvent)
    (he : e ∈ processTransaction classify tx blockHeight blockTime) :
    (e.flowType = "buying" ↔ e.fromType = "exchange" ∧ e.toType ≠ "exchange") ∧
    (e.flowType = "selling" ↔ e.toType = "exchange" ∧ e.fromType ≠ "exchange") ∧
    (e.flowType = "p2p" ↔
      ¬(e.fromType = "exchange" ∧ e.toType ≠ "exchange") ∧
      ¬(e.toType = "exchange" ∧ e.fromType ≠ "exchange")) := by
  obtain ⟨-, h2, h3, h4⟩ := mem_processTransaction he
  have hft : e.flowType = classifyFlow e.fromType e.toType := by
    rw [h2, h3]; exact h4
  rw [hft]
  exact classifyFlow_spec e.fromType e.toType

/-- A two-address classifier for concrete checks: `E1` is an exchange,
`N1` a node operator, everything else unknown. -/
def wClassify : String → ClassResult := fun a =>
  if a == "E1" then { type := "exchange", name := "Binance", logo := "b.png" }
  else if a == "N1" then { type := "node_operator", nodeCount := 3 }
  else { type := "unknown" }

/-- A concrete transaction: exchange input `E1`, one 10-FLUX output to the
unclassified wallet `W1`. -/
def wTx : Tx :=
  { txid := "t1", vin := [⟨["E1"]⟩], vout := [⟨["W1"], 1000000000⟩] }

/-- The single flow event `processTransaction` emits for `wTx`. -/
def wEvent : FlowEvent :=
  { txid := "t1"
    vout := 0
    blockHeight := 100
    blockTime := 1000
    fromAddress := "E1"
    fromType := "exchange"
    fromDetails := Json.obj [("name", Json.str "Binance"), ("logo", Json.str "b.png")]
    toAddress := "W1"
    toType := "unknown"
    toDetails := Json.null
    flowType := "buying"
    amount := (1000000000 : Rat) / 100000000 }

theorem wEvent_mem : wEvent ∈ processTransaction wClassify wTx 100 1000 := by
  have h : processTransaction wClassify wTx 100 1000 = [wEvent] := rfl
  rw [h]
  exact List.mem_singleton_self wEvent

theorem flowType_deterministic_witness :
    (wEvent.flowType = "buying" ↔ wEvent.fromType = "exchange" ∧ wEvent.toType ≠ "exchange") ∧
    (wEvent.flowType = "selling" ↔ wEvent.toType = "exchange" ∧ wEvent.fromType ≠ "exchange") ∧
    (wEvent.flowType = "p2p" ↔
      ¬(wEvent.fromType = "exchange" ∧ wEvent.toType ≠ "exchange") ∧
      ¬(wEvent.toType = "exchange" ∧ wEvent.fromType ≠ "exchange")) :=
  flowType_deterministic wClassify wTx 100 1000 wEvent wEvent_mem

/-- **C10**: when no input of a relevant transaction carries any address,
every emitted flow event has the literal string `unknown` as its
`from_address` and `unknown` as its `from_type`. -/
theorem addressless_inputs_sentinel (classify : String → ClassResult) (tx : Tx)
    (blockHeight blockTime : Nat)
    (hvin : ∀ i ∈ tx.vin, i.addresses = []) (e : FlowEvent)
    (he : e ∈ processTransaction classify tx blockHeight blockTime) :
    e.fromAddress = "unknown" ∧ e.fromType = "unknown" := by
  have hnil : inputAddressesOf tx = [] := by
    unfold inputAddressesOf
    simp only [List.flatMap_eq_nil_iff]
    exact hvin
  have hp : primaryInput classify tx = ("unknown", Json.null, "unknown") := by
    unfold primaryInput
    rw [hnil]
    rfl
  obtain ⟨h1, h2, -, -⟩ := mem_processTransaction he
  rw [hp] at h1 h2
  exact ⟨h1, h2⟩

/-- An addressless-input transaction: one empty-address input, one output
to the node operator `N1`. -/
def wTxNoAddr : Tx :=
  { txid := "t2", vin := [⟨[]⟩], vout := [⟨["N1"], 200000000⟩] }

/-- The single flow event `processTransaction` emits for `wTxNoAddr`. -/
def wEventNoAddr : FlowEvent :=
  { txid := "t2"
    vout := 0
    blockHeight := 101
    blockTime := 1030
    fromAddress := "unknown"
    fromType := "unknown"
    fromDetails := Json.null
    toAddress := "N1"
    toType := "node_operator"
    toDetails := Json.obj [("nodeCount", Json.num 3), ("tiers", Json.null)]
    flowType := "p2p"
    amount := (200000000 : Rat) / 100000000 }

theorem wEventNoAddr_mem : wEventNoAddr ∈ processTransaction wClassify wTxNoAddr 101 1030 := by
  have h : processTransaction wClassify wTxNoAddr 101 1030 = [wEventNoAddr] := rfl
  rw [h]
  exact List.mem_singleton_self wEventNoAddr

theorem addressless_inputs_sentinel_witness :
    wEventNoAddr.fromAddress = "unknown" ∧ wEventNoAddr.fromType = "unknown" :=
  addressless_inputs_sentinel wClassify wTxNoAddr 101 1030
    (by intro i hi; simp only [wTxNoAddr, List.mem_singleton] at hi; rw [hi])
    wEventNoAddr wEventNoAddr_mem

/-- **C3** (code bug): on a caught-up tick the sync loop never takes the
backward-fill branch, whatever the stored-block count and retention
target, because its guard compares against the nonexistent
`FLUX_CONFIG.PERIODS['6M']` key and a JavaScript comparison with
`undefined` is always false. -/
theorem backward_sync_unreachable (currentBlock latestSynced storedBlocks targetBlock
    oldestStored batchSize : Nat) (hcaught : currentBlock ≤ latestSynced) :
    syncLatestAction currentBlock latestSynced storedBlocks targetBlock
      oldestStored batchSize = .idle := by
  unfold syncLatestAction
  have h1 : ¬(latestSynced < currentBlock) := Nat.not_lt.mpr hcaught
  have h2 : PERIODS "6M" = none := rfl
  simp [h1, h2, jsLtUndef]

theorem backward_sync_unreachable_witness :
    syncLatestAction 12000 12000 100 1 11901 30 = .idle :=
  backward_sync_unreachable 12000 12000 100 1 11901 30 (Nat.le_refl 12000)

theorem byHeightDesc_trans (a b c : FlowRow) :
    byHeightDesc a b → byHeightDesc b c → byHeightDesc a c := by
  unfold byHeightDesc
  simp only [decide_eq_true_eq]
  omega

theorem byHeightDesc_total (a b : FlowRow) : byHeightDesc a b || byHeightDesc b a := by
  unfold byHeightDesc
  rcases Nat.le_total b.block_height a.block_height with h | h <;> simp [h]

/-- The shared shape of both sides of the unknown-wallets query:
`SELECT ... WHERE pred ORDER BY block_height DESC LIMIT 1000`. -/
theorem filterSortTake_spec (rows : List FlowRow) (pred : FlowRow → Bool) :
    (((rows.filter pred).mergeSort byHeightDesc).take 1000).length ≤ 1000 ∧
    (∀ r ∈ ((rows.filter pred).mergeSort byHeightDesc).take 1000,
      r ∈ rows ∧ pred r = true) ∧
    (∀ r ∈ rows, pred r = true → (rows.filter pred).length ≤ 1000 →
      r ∈ ((rows.filter pred).mergeSort byHeightDesc).take 1000) ∧
    (((rows.filter pred).mergeSort byHeightDesc).take 1000).Pairwise
      (fun a b => b.block_height ≤ a.block_height) := by
  refine ⟨List.length_take_le 1000 _, ?_, ?_, ?_⟩
  · intro r hr
    have h1 := List.mem_of_mem_take hr
    have h2 := List.mem_mergeSort.mp h1
    exact ⟨(List.mem_filter.mp h2).1, (List.mem_filter.mp h2).2⟩
  · intro r hr hpred hlen
    have h1 : r ∈ (rows.filter pred).mergeSort byHeightDesc :=
      List.mem_mergeSort.mpr (List.mem_filter.mpr ⟨hr, hpred⟩)
    have h2 : ((rows.filter pred).mergeSort byHeightDesc).take 1000
        = (rows.filter pred).mergeSort byHeightDesc := by
      apply List.take_of_length_le
      rw [List.length_mergeSort]
      exact hlen
    rw [h2]
    exact h1
  · have hs := List.sorted_mergeSort byHeightDesc_trans byHeightDesc_total (rows.filter pred)
    have ht := hs.sublist (List.take_sublist 1000 _)
    exact ht.imp (fun h => by
      have := of_decide_eq_true h
      exact this)

/-- **C5**: `getUnknownWallets` returns, per side, exactly the level-0
events of that flow type with an `unknown` counterparty outside the retry
cooldown — sound for every returned row, complete whenever at most 1000
rows match — capped at 1000 and ordered newest first by block height;
`total` is the sum of the two sides. -/
theorem getUnknownWallets_spec (db : DB) (now : Nat) (failedRetryHours : Option Nat) :
    ((∀ r ∈ (getUnknownWallets db now failedRetryHours).buys, r ∈ db.rows ∧
        unknownBuyPred ((now : Int) - (failedRetryHours.getD 24) * 3600) r = true) ∧
      (∀ r ∈ db.rows,
        unknownBuyPred ((now : Int) - (failedRetryHours.getD 24) * 3600) r = true →
        (db.rows.filter
          (unknownBuyPred ((now : Int) - (failedRetryHours.getD 24) * 3600))).length ≤ 1000 →
        r ∈ (getUnknownWallets db now failedRetryHours).buys) ∧
      (getUnknownWallets db now failedRetryHours).buys.length ≤ 1000 ∧
      (getUnknownWallets db now failedRetryHours).buys.Pairwise
        (fun a b => b.block_height ≤ a.block_height)) ∧
    ((∀ r ∈ (getUnknownWallets db now failedRetryHours).sells, r ∈ db.rows ∧
        unknownSellPred ((now : Int) - (failedRetryHours.getD 24) * 3600) r = true) ∧
      (∀ r ∈ db.rows,
        unknownSellPred ((now : Int) - (failedRetryHours.getD 24) * 3600) r = true →
        (db.rows.filter
          (unknownSellPred ((now : Int) - (failedRetryHours.getD 24) * 3600))).length ≤ 1000 →
        r ∈ (getUnknownWallets db now failedRetryHours).sells) ∧
      (getUnknownWallets db now failedRetryHours).sells.length ≤ 1000 ∧
      (getUnknownWallets db now failedRetryHours).sells.Pairwise
        (fun a b => b.block_height ≤ a.block_height)) ∧
    (getUnknownWallets db now failedRetryHours).total =
      (getUnknownWallets db now failedRetryHours).buys.length +
        (getUnknownWallets db now failedRetryHours).sells.length := by
  have hb := filterSortTake_spec db.rows
    (unknownBuyPred ((now : Int) - (failedRetryHours.getD 24) * 3600))
  have hs := filterSortTake_spec db.rows
    (unknownSellPred ((now : Int) - (failedRetryHours.getD 24) * 3600))
  exact ⟨⟨hb.2.1, hb.2.2.1, hb.1, hb.2.2.2⟩, ⟨hs.2.1, hs.2.2.1, hs.1, hs.2.2.2⟩, rfl⟩

/-- A level-0 unknown buying event, last analyzed at `t = 999990`. -/
def wRowBuy : FlowRow :=
  { id := 1, txid := "tb", vout := 0, block_height := 500, block_time := 15000
    from_address := "E1", from_type := "exchange", from_details := none
    to_address := "U1", to_type := "unknown", to_details := none
    flow_type := "buying", amount := 1, classification_level := 0
    intermediary_wallet := none, analysis_timestamp := some 999990
    data_source := "sync", hop_chain := none }

/-- The same event shape, still stamped 10 seconds before `now = 1000000`,
so inside the 24-hour cooldown. -/
def wRowCooling : FlowRow :=
  { wRowBuy with id := 2, txid := "tc" }

/-- A store with one never-analyzed unknown buy and one cooling-down one. -/
def wDb3 : DB :=
  { rows := [{ wRowBuy with analysis_timestamp := none }, wRowCooling], nextId := 3 }

theorem getUnknownWallets_spec_witness :
    ({ wRowBuy with analysis_timestamp := none } : FlowRow)
      ∈ (getUnknownWallets wDb3 1000000 none).buys :=
  (getUnknownWallets_spec wDb3 1000000 none).1.2.1
    { wRowBuy with analysis_timestamp := none }
    (List.mem_cons_self _ _) rfl (by decide)

theorem insertAll_insertStep (db : DB) (events : List FlowEvent) :
    insertAll insertStep db events = .ok (events.foldl insertOrReplaceFlowEvent db) := by
  induction events generalizing db with
  | nil => rfl
  | cons e rest ih => simpa [insertAll, insertStep] using ih (insertOrReplaceFlowEvent db e)

/-- **C6**: `saveFlowEventsBatch` is atomic on every non-empty batch: if
the transaction body runs all inserts it commits their combined effect and
reports no error; if any insert raises, the store is left exactly as it
was and the error is reported; with the repository's plain
`INSERT OR REPLACE` step the batch always commits all events in order. -/
theorem saveFlowEventsBatch_atomic (ins : DB → FlowEvent → Except String DB)
    (db : DB) (events : List FlowEvent) (hne : events ≠ []) :
    (∀ db', insertAll ins db events = .ok db' →
      saveFlowEventsBatch ins db events = (db', none)) ∧
    (∀ msg, insertAll ins db events = .error msg →
      saveFlowEventsBatch ins db events = (db, some msg)) ∧
    saveFlowEventsBatch insertStep db events =
      (events.foldl insertOrReplaceFlowEvent db, none) := by
  have hni : events.isEmpty = false := by
    cases events with
    | nil => exact absurd rfl hne
    | cons a l => rfl
  refine ⟨?_, ?_, ?_⟩
  · intro db' h
    unfold saveFlowEventsBatch
    rw [hni, h]
    rfl
  · intro msg h
    unfold saveFlowEventsBatch
    rw [hni, h]
    rfl
  · unfold saveFlowEventsBatch
    rw [hni, insertAll_insertStep]
    rfl

/-- An insert step that always raises, standing in for a constraint
violation inside the transaction. -/
def insFail : DB → FlowEvent → Except String DB := fun _ _ => .error "constraint"

theorem saveFlowEventsBatch_atomic_witness :
    saveFlowEventsBatch insFail DB.empty [wEvent, wEventNoAddr] = (DB.empty, some "constraint") :=
  (saveFlowEventsBatch_atomic insFail DB.empty [wEvent, wEventNoAddr]
    (List.cons_ne_nil _ _)).2.1 "constraint" rfl

theorem applyPatch_idem (p : FlowPatch) (r : FlowRow) :
    applyPatch p (applyPatch p r) = applyPatch p r := by
  unfold applyPatch
  rcases p with ⟨cl, iw, hc, ats, ds, ft, fd, tt, td⟩
  cases cl <;> cases iw <;> cases hc <;> cases ats <;> cases ds <;> cases ft <;>
    cases fd <;> cases tt <;> cases td <;> rfl

/-- **C9** (counterexample to the claim as stated): the empty subset of
patchable fields is not accepted — `updateFlowEventClassification` raises
`No updates provided` instead of performing a no-op update. -/
theorem update_rejects_empty_patch :
    updateFlowEventClassification DB.empty 1 {} = .error "No updates provided" := rfl

/-- **C9** (amended: any *non-empty* subset): the update succeeds,
patching exactly the row with the given id; on that row every field
present in the patch is overwritten with the patch value (details through
the truthiness/stringify gate) and every field absent from the patch — as
well as every non-patchable column — is unchanged; and the update is
idempotent. -/
theorem updateFlowEventClassification_spec (db : DB) (id : Nat) (p : FlowPatch)
    (hp : p.isEmpty = false) :
    updateFlowEventClassification db id p =
      .ok { db with rows := db.rows.map (fun r => if r.id == id then applyPatch p r else r) } ∧
    (∀ r : FlowRow,
      (applyPatch p r).id = r.id ∧ (applyPatch p r).txid = r.txid ∧
      (applyPatch p r).vout = r.vout ∧ (applyPatch p r).block_height = r.block_height ∧
      (applyPatch p r).block_time = r.block_time ∧
      (applyPatch p r).from_address = r.from_address ∧
      (applyPatch p r).to_address = r.to_address ∧
      (applyPatch p r).flow_type = r.flow_type ∧ (applyPatch p r).amount = r.amount ∧
      (p.classificationLevel = none →
        (applyPatch p r).classification_level = r.classification_level) ∧
      (∀ v, p.classificationLevel = some v → (applyPatch p r).classification_level = v) ∧
      (p.intermediaryWallet = none →
        (applyPatch p r).intermediary_wallet = r.intermediary_wallet) ∧
      (∀ v, p.intermediaryWallet = some v → (applyPatch p r).intermediary_wallet = v) ∧
      (p.hopChain = none → (applyPatch p r).hop_chain = r.hop_chain) ∧
      (∀ v, p.hopChain = some v → (applyPatch p r).hop_chain = storeDetails v) ∧
      (p.analysisTimestamp = none →
        (applyPatch p r).analysis_timestamp = r.analysis_timestamp) ∧
      (∀ v, p.analysisTimestamp = some v → (applyPatch p r).analysis_timestamp = v) ∧
      (p.dataSource = none → (applyPatch p r).data_source = r.data_source) ∧
      (∀ v, p.dataSource = some v → (applyPatch p r).data_source = v) ∧
      (p.fromType = none → (applyPatch p r).from_type = r.from_type) ∧
      (∀ v, p.fromType = some v → (applyPatch p r).from_type = v) ∧
      (p.fromDetails = none → (applyPatch p r).from_details = r.from_details) ∧
      (∀ v, p.fromDetails = some v → (applyPatch p r).from_details = storeDetails v) ∧
      (p.toType = none → (applyPatch p r).to_type = r.to_type) ∧
      (∀ v, p.toType = some v → (applyPatch p r).to_type = v) ∧
      (p.toDetails = none → (applyPatch p r).to_details = r.to_details) ∧
      (∀ v, p.toDetails = some v → (applyPatch p r).to_details = storeDetails v)) ∧
    (∀ db', updateFlowEventClassification db id p = .ok db' →
      updateFlowEventClassification db' id p = .ok db') := by
  refine ⟨?_, ?_, ?_⟩
  · unfold updateFlowEventClassification
    rw [hp]
    rfl
  · intro r
    refine ⟨rfl, rfl, rfl, rfl, rfl, rfl, rfl, rfl, rfl, ?_, ?_, ?_, ?_, ?_, ?_, ?_, ?_,
      ?_, ?_, ?_, ?_, ?_, ?_, ?_, ?_, ?_, ?_⟩ <;>
      first
        | (intro h; simp [applyPatch, h])
        | (intro v h; simp [applyPatch, h])
  · intro db' h
    unfold updateFlowEventClassification at h ⊢
    rw [hp] at h ⊢
    simp only [Bool.false_eq_true, if_false, Except.ok.injEq] at h
    subst h
    simp only [Bool.false_eq_true, if_false, Except.ok.injEq, List.map_map]
    congr 1
    apply List.map_congr_left
    intro r _
    by_cases hid : r.id == id
    · have hid' : (applyPatch p r).id == id := by
        have : (applyPatch p r).id = r.id := rfl
        rw [this]
        exact hid
      simp only [Function.comp_apply, hid, if_true, hid', applyPatch_idem]
    · simp only [Function.comp_apply, hid, if_false]
      rw [if_neg (by simpa using hid)]

/-- A two-field patch: raise the level to 1 and mark the row enhanced. -/
def wPatch : FlowPatch := { classificationLevel := some 1, dataSource := some "enhanced" }

theorem updateFlowEventClassification_spec_witness :
    updateFlowEventClassification wDb3 1 wPatch =
      .ok { wDb3 with
        rows := wDb3.rows.map (fun r => if r.id == 1 then applyPatch wPatch r else r) } :=
  (updateFlowEventClassification_spec wDb3 1 wPatch rfl).1

/-- A chain view on which every enhancement probe misses: no coinbase
receipts, no historical connections, no node operators, and no next or
previous counterparty transactions. -/
def cvMiss : ChainView :=
  { isNodeOp := fun _ => false
    nodeDetails := fun _ => none
    coinbase := fun _ _ _ => { hasCoinbase := false }
    histConnOut := fun _ _ => { found := false }
    histConnIn := fun _ _ => { found := false }
    nextTxFrom := fun _ _ _ => none
    prevTxTo := fun _ _ _ => none }

/-- Both historical lanes enabled with a one-year window (the
configuration contract of the spec). -/
def cfgOn : EnhConfig :=
  { historicalEnabled := true
    historicalConnectionsEnabled := true
    historicalWindow := 1051200 }

/-- A level-0 unknown buying event awaiting enhancement. -/
def wUnknownRow : FlowRow :=
  { id := 7, txid := "tx7", vout := 0, block_height := 5000, block_time := 150000
    from_address := "E1", from_type := "exchange", from_details := none
    to_address := "U1", to_type := "unknown", to_details := none
    flow_type := "buying", amount := 5, classification_level := 0
    intermediary_wallet := none, analysis_timestamp := none
    data_source := "sync", hop_chain := none }

/-- A level-0 unknown selling event awaiting enhancement. -/
def wSellRow : FlowRow :=
  { id := 8, txid := "tx8", vout := 0, block_height := 5001, block_time := 150030
    from_address := "U2", from_type := "unknown", from_details := none
    to_address := "E1", to_type := "exchange", to_details := none
    flow_type := "selling", amount := 2, classification_level := 0
    intermediary_wallet := none, analysis_timestamp := none
    data_source := "sync", hop_chain := none }

/-- The store holding the two unknown events above. -/
def wDbUnknowns : DB := { rows := [wUnknownRow, wSellRow], nextId := 9 }

/-- **C2** (code bug): when the whole analysis misses — both Lane A checks
fail and the multi-hop BFS returns no hit — the per-event analyzers
perform *no* store write at all: at analysis time `999999` the store is
returned unchanged, the rows' `analysis_timestamp` stays NULL instead of
being set to now, and both events are still returned by the unknowns query
afterwards (`now = 1000000`), so the `FAILED_RETRY_HOURS` cooldown never
engages. -/
theorem enhancement_miss_no_cooldown_stamp :
    analyzeBuyingEventMultiHop cvMiss cfgOn 999999 3 10 wDbUnknowns wUnknownRow
      = some wDbUnknowns ∧
    analyzeSellingEventMultiHop cvMiss cfgOn 999999 3 10 wDbUnknowns wSellRow
      = some wDbUnknowns ∧
    wUnknownRow.analysis_timestamp = none ∧
    wSellRow.analysis_timestamp = none ∧
    wUnknownRow ∈ (getUnknownWallets wDbUnknowns 1000000 none).buys ∧
    wSellRow ∈ (getUnknownWallets wDbUnknowns 1000000 none).sells := by
  refine ⟨rfl, rfl, rfl, rfl, ?_, ?_⟩
  · exact (filterSortTake_spec wDbUnknowns.rows _).2.2.1 wUnknownRow
      (List.mem_cons_self _ _) rfl (by decide)
  · exact (filterSortTake_spec wDbUnknowns.rows _).2.2.1 wSellRow
      (List.mem_cons_of_mem _ (List.mem_cons_self _ _)) rfl (by decide)

/-- A detail value the save/read pair preserves: the JavaScript `null`, or
any truthy value (in particular every object the pipeline emits). -/
def detailOk (j : Json) : Prop := j = Json.null ∨ j.truthy = true

theorem readDetails_storeDetails (j : Json) (h : detailOk j) :
    readDetails (storeDetails j) = j := by
  rcases h with h | h
  · subst h; rfl
  · unfold storeDetails readDetails
    rw [h]
    rfl

/-- The rows a batch insert appends starting from AUTOINCREMENT id `n`. -/
def rowsFrom (n : Nat) : List FlowEvent → List FlowRow
  | [] => []
  | e :: rest => rowOfEvent n e :: rowsFrom (n + 1) rest

theorem mem_rowsFrom {r : FlowRow} {n : Nat} {events : List FlowEvent}
    (h : r ∈ rowsFrom n events) : ∃ e ∈ events, ∃ k, r = rowOfEvent k e := by
  induction events generalizing n with
  | nil => cases h
  | cons e rest ih =>
    rcases h with _ | ⟨_, hmem⟩
    · exact ⟨e, List.mem_cons_self _ _, n, rfl⟩
    · obtain ⟨e', he', k, hk⟩ := ih hmem
      exact ⟨e', List.mem_cons_of_mem _ he', k, hk⟩

theorem saveFlowEventsBatch_insertStep (db : DB) (events : List FlowEvent) :
    saveFlowEventsBatch insertStep db events =
      (events.foldl insertOrReplaceFlowEvent db, none) := by
  cases events with
  | nil => rfl
  | cons e rest =>
    unfold saveFlowEventsBatch
    rw [insertAll_insertStep]
    rfl

theorem foldl_insert_rows (events : List FlowEvent) (db : DB)
    (hnd : (events.map (fun e => (e.txid, e.vout))).Nodup)
    (hdisj : ∀ r ∈ db.rows, ∀ e ∈ events, ¬(r.txid = e.txid ∧ r.vout = e.vout)) :
    (events.foldl insertOrReplaceFlowEvent db).rows = db.rows ++ rowsFrom db.nextId events := by
  induction events generalizing db with
  | nil => simp [rowsFrom]
  | cons e rest ih =>
    have hfilter : db.rows.filter (fun r => !(r.txid == e.txid && r.vout == e.vout)) = db.rows := by
      apply List.filter_eq_self.mpr
      intro r hr
      have := hdisj r hr e (List.mem_cons_self _ _)
      simp only [Bool.not_eq_true', Bool.and_eq_false_iff, beq_eq_false_iff_ne, ne_eq]
      by_cases h1 : r.txid = e.txid
      · exact Or.inr (fun h2 => this ⟨h1, h2⟩)
      · exact Or.inl h1
    have hstep : (insertOrReplaceFlowEvent db e).rows = db.rows ++ [rowOfEvent db.nextId e] := by
      unfold insertOrReplaceFlowEvent
      rw [hfilter]
    have hndrest : (rest.map (fun e => (e.txid, e.vout))).Nodup :=
      (List.nodup_cons.mp hnd).2
    have hkey : (e.txid, e.vout) ∉ rest.map (fun e => (e.txid, e.vout)) :=
      (List.nodup_cons.mp hnd).1
    have hdisj' : ∀ r ∈ (insertOrReplaceFlowEvent db e).rows, ∀ e' ∈ rest,
        ¬(r.txid = e'.txid ∧ r.vout = e'.vout) := by
      intro r hr e' he'
      rw [hstep] at hr
      rcases List.mem_append.mp hr with hr | hr
      · exact hdisj r hr e' (List.mem_cons_of_mem _ he')
      · rcases List.mem_singleton.mp hr with rfl
        intro ⟨h1, h2⟩
        apply hkey
        have : (e.txid, e.vout) = (e'.txid, e'.vout) := by
          simp only [rowOfEvent] at h1 h2
          rw [h1, h2]
        rw [this]
        exact List.mem_map.mpr ⟨e', he', rfl⟩
    have hnext : (insertOrReplaceFlowEvent db e).nextId = db.nextId + 1 := rfl
    calc ((e :: rest).foldl insertOrReplaceFlowEvent db).rows
        = (rest.foldl insertOrReplaceFlowEvent (insertOrReplaceFlowEvent db e)).rows := rfl
      _ = (insertOrReplaceFlowEvent db e).rows
            ++ rowsFrom (insertOrReplaceFlowEvent db e).nextId rest :=
          ih (insertOrReplaceFlowEvent db e) hndrest hdisj'
      _ = db.rows ++ rowsFrom db.nextId (e :: rest) := by
          rw [hstep, hnext, List.append_assoc]
          rfl

theorem rowsFrom_filter_range (n lo hi : Nat) (events : List FlowEvent)
    (hrange : ∀ e ∈ events, lo ≤ e.blockHeight ∧ e.blockHeight ≤ hi) :
    (rowsFrom n events).filter
        (fun r => lo ≤ r.block_height && r.block_height ≤ hi) = rowsFrom n events := by
  apply List.filter_eq_self.mpr
  intro r hr
  obtain ⟨e, he, k, rfl⟩ := mem_rowsFrom hr
  have h := hrange e he
  simp only [rowOfEvent, Bool.and_eq_true, decide_eq_true_eq]
  exact h

theorem eventOfRow_rowOfEvent (k : Nat) (e : FlowEvent)
    (hf : detailOk e.fromDetails) (ht : detailOk e.toDetails) :
    eventOfRow (rowOfEvent k e) = e := by
  unfold eventOfRow rowOfEvent
  cases e
  simp only at hf ht ⊢
  rw [readDetails_storeDetails _ hf, readDetails_storeDetails _ ht]

theorem map_eventOfRow_rowsFrom (n : Nat) (events : List FlowEvent)
    (hdet : ∀ e ∈ events, detailOk e.fromDetails ∧ detailOk e.toDetails) :
    (rowsFrom n events).map eventOfRow = events := by
  induction events generalizing n with
  | nil => rfl
  | cons e rest ih =>
    have h := hdet e (List.mem_cons_self _ _)
    simp only [rowsFrom, List.map_cons]
    rw [eventOfRow_rowOfEvent n e h.1 h.2,
      ih (n + 1) (fun e' he' => hdet e' (List.mem_cons_of_mem _ he'))]

/-- **C7** (counterexample to the claim as stated): a falsy JSON detail —
here the value `false` — is stored as SQL `NULL` by the
`details ? JSON.stringify(details) : null` gate, so it reads back as
`null` and the round-trip is not lossless even for a singleton batch whose
key is unique and whose height lies inside the queried range. -/
def eFalsy : FlowEvent :=
  { txid := "tf", vout := 0, blockHeight := 50, blockTime := 1500
    fromAddress := "E1", fromType := "exchange", fromDetails := Json.bool false
    toAddress := "W1", toType := "unknown", toDetails := Json.null
    flowType := "buying", amount := 1 }

theorem roundtrip_loses_falsy_details :
    (getFlowEvents (saveFlowEventsBatch insertStep DB.empty [eFalsy]).1 0 100).map eventOfRow
      ≠ [eFalsy] := by
  have h1 : (saveFlowEventsBatch insertStep DB.empty [eFalsy]).1.rows
      = [rowOfEvent 1 eFalsy] := rfl
  have h2 : getFlowEvents (saveFlowEventsBatch insertStep DB.empty [eFalsy]).1 0 100
      = [rowOfEvent 1 eFalsy] := by
    unfold getFlowEvents
    rw [h1]
    have hf : ([rowOfEvent 1 eFalsy]).filter
        (fun r => 0 ≤ r.block_height && r.block_height ≤ 100) = [rowOfEvent 1 eFalsy] := rfl
    rw [hf, List.mergeSort_singleton]
  rw [h2]
  intro hcontra
  have hhead : eventOfRow (rowOfEvent 1 eFalsy) = eFalsy := by
    simpa using hcontra
  have hdet : (eventOfRow (rowOfEvent 1 eFalsy)).fromDetails = Json.null := rfl
  rw [hhead] at hdet
  exact Json.noConfusion hdet

/-- **C7** (amended: details must be `null` or truthy, as every payload the
pipeline actually emits is): saving a batch of flow events with pairwise
distinct `(txid, vout)` keys and heights inside `[lo, hi]` into an empty
store and reading the range back returns exactly the saved events (as a
permutation — the read is ordered by height and id, newest first), with
the JSON detail columns restored losslessly. -/
theorem save_get_roundtrip (events : List FlowEvent) (lo hi : Nat)
    (hkeys : (events.map (fun e => (e.txid, e.vout))).Nodup)
    (hrange : ∀ e ∈ events, lo ≤ e.blockHeight ∧ e.blockHeight ≤ hi)
    (hdet : ∀ e ∈ events, detailOk e.fromDetails ∧ detailOk e.toDetails) :
    ((getFlowEvents (saveFlowEventsBatch insertStep DB.empty events).1 lo hi).map
      eventOfRow).Perm events := by
  have hsave : (saveFlowEventsBatch insertStep DB.empty events).1
      = events.foldl insertOrReplaceFlowEvent DB.empty := by
    rw [saveFlowEventsBatch_insertStep]
  have hrows : (events.foldl insertOrReplaceFlowEvent DB.empty).rows = rowsFrom 1 events := by
    have h := foldl_insert_rows events DB.empty hkeys (by intro r hr; cases hr)
    simpa [DB.empty] using h
  rw [hsave]
  unfold getFlowEvents
  rw [hrows, rowsFrom_filter_range 1 lo hi events hrange]
  have hperm : ((rowsFrom 1 events).mergeSort byHeightIdDesc).Perm (rowsFrom 1 events) :=
    List.mergeSort_perm _ _
  have := hperm.map eventOfRow
  rwa [map_eventOfRow_rowsFrom 1 events hdet] at this

theorem save_get_roundtrip_witness :
    ((getFlowEvents (saveFlowEventsBatch insertStep DB.empty [wEvent, wEventNoAddr]).1 90 110).map
      eventOfRow).Perm [wEvent, wEventNoAddr] :=
  save_get_roundtrip [wEvent, wEventNoAddr] 90 110
    (by decide)
    (by
      intro e he
      rcases List.mem_pair.mp he with rfl | rfl
      · exact ⟨by norm_num [wEvent], by norm_num [wEvent]⟩
      · exact ⟨by norm_num [wEventNoAddr], by norm_num [wEventNoAddr]⟩)
    (by
      intro e he
      rcases List.mem_pair.mp he with rfl | rfl
      · exact ⟨Or.inr rfl, Or.inl rfl⟩
      · exact ⟨Or.inl rfl, Or.inr rfl⟩)

theorem not_mem_of_contains_eq_false {l : List String} {a : String}
    (h : l.contains a = false) : a ∉ l := by
  intro hmem
  rw [List.contains, List.elem_eq_mem, decide_eq_false_iff_not] at h
  exact h hmem

/-- The loop invariant of the multi-hop BFS: provided the wallets already
dequeued and the wallets still queued are jointly distinct, every recorded
wallet (dequeued, queued, or on a queued chain) is in the visited set, and
every queued chain has exactly `depth` entries, then on termination the
dequeued-wallet log has no duplicates, and any hit carries a positive
level, a chain of exactly `level` wallets, and a node wallet outside that
chain. -/
theorem bfsLoop_inv (cv : ChainView) (cfg : EnhConfig) (direction : Dir)
    (sBH sTS maxDepth : Nat) :
    ∀ (fuel : Nat) (queue : List QueueEntry) (visited explored : List String)
      (circular : Nat) (o : BfsOutcome),
      bfsLoop cv cfg direction sBH sTS maxDepth fuel queue visited explored circular = some o →
      (explored ++ queue.map (fun q => q.wallet)).Nodup →
      (∀ w ∈ explored, w ∈ visited) →
      (∀ q ∈ queue, q.wallet ∈ visited) →
      (∀ q ∈ queue, ∀ w ∈ q.chain, w ∈ visited) →
      (∀ q ∈ queue, q.chain.length = q.depth) →
      o.explored.Nodup ∧
        ∀ res, o.result = some res →
          0 < res.level ∧ res.chain.length = res.level ∧ res.nodeWallet ∉ res.chain := by
  intro fuel
  induction fuel with
  | zero =>
    intro queue visited explored circular o h
    exact absurd h (by simp [bfsLoop])
  | succ fuel ih =>
    intro queue visited explored circular o h hnd hexp hqw hqc hql
    cases queue with
    | nil =>
      simp only [bfsLoop] at h
      obtain rfl := Option.some.inj h
      refine ⟨by simpa using hnd, ?_⟩
      intro res hres
      exact absurd hres (by simp)
    | cons current rest =>
      have hcw : current.wallet ∈ visited := hqw current (List.mem_cons_self _ _)
      have hnd' : ((explored ++ [current.wallet]) ++ rest.map (fun q => q.wallet)).Nodup := by
        simp only [List.map_cons] at hnd
        simpa [List.append_assoc] using hnd
      have hexp' : ∀ w ∈ explored ++ [current.wallet], w ∈ visited := by
        intro w hw
        rcases List.mem_append.mp hw with hw | hw
        · exact hexp w hw
        · rcases List.mem_singleton.mp hw with rfl
          exact hcw
      have hqw' : ∀ q ∈ rest, q.wallet ∈ visited :=
        fun q hq => hqw q (List.mem_cons_of_mem _ hq)
      have hqc' : ∀ q ∈ rest, ∀ w ∈ q.chain, w ∈ visited :=
        fun q hq => hqc q (List.mem_cons_of_mem _ hq)
      have hql' : ∀ q ∈ rest, q.chain.length = q.depth :=
        fun q hq => hql q (List.mem_cons_of_mem _ hq)
      have hndtake : (explored ++ [current.wallet]).Nodup :=
        (List.sublist_append_left _ _).nodup hnd'
      have hchaincur : ∀ w ∈ current.chain, w ∈ visited :=
        hqc current (List.mem_cons_self _ _)
      have hlencur : current.chain.length = current.depth :=
        hql current (List.mem_cons_self _ _)
      simp only [bfsLoop] at h
      split at h
      · -- current.depth at or beyond max depth: dequeue and continue
        exact ih rest visited (explored ++ [current.wallet]) circular o h hnd' hexp' hqw' hqc' hql'
      · split at h
        · -- no counterparty transaction: dequeue and continue
          exact ih rest visited (explored ++ [current.wallet]) circular o h
            hnd' hexp' hqw' hqc' hql'
        · rename_i tx htx
          split at h
          · -- circular skip: counter bumped, nothing enqueued
            exact ih rest visited (explored ++ [current.wallet]) (circular + 1) o h
              hnd' hexp' hqw' hqc' hql'
          · rename_i hcont
            have hnw : hopCounterparty direction tx ∉ visited :=
              not_mem_of_contains_eq_false (Bool.of_not_eq_true hcont)
            split at h
            · -- hit on the current node API
              obtain rfl := Option.some.inj h
              refine ⟨hndtake, ?_⟩
              intro res hres
              obtain rfl := Option.some.inj hres
              refine ⟨Nat.succ_pos _, by simp [hlencur], ?_⟩
              intro hmem
              have hmem' : hopCounterparty direction tx ∈ current.chain ++ [current.wallet] := hmem
              rcases List.mem_append.mp hmem' with hm | hm
              · exact hnw (hchaincur _ hm)
              · rcases List.mem_singleton.mp hm with heq
                rw [heq] at hnw
                exact hnw hcw
            · split at h
              · -- hit on historical coinbase
                obtain rfl := Option.some.inj h
                refine ⟨hndtake, ?_⟩
                intro res hres
                obtain rfl := Option.some.inj hres
                refine ⟨Nat.succ_pos _, by simp [hlencur], ?_⟩
                intro hmem
                have hmem' : hopCounterparty direction tx ∈ current.chain ++ [current.wallet] :=
                  hmem
                rcases List.mem_append.mp hmem' with hm | hm
                · exact hnw (hchaincur _ hm)
                · rcases List.mem_singleton.mp hm with heq
                  rw [heq] at hnw
                  exact hnw hcw
              · split at h
                · -- enqueue the counterparty one level deeper
                  refine ih _ _ _ circular o h ?_ ?_ ?_ ?_ ?_
                  · simp only [List.map_append, List.map_cons, List.map_nil]
                    rw [show explored ++ [current.wallet] ++
                          (rest.map (fun q => q.wallet) ++ [hopCounterparty direction tx]) =
                        ((explored ++ [current.wallet]) ++ rest.map (fun q => q.wallet)) ++
                          [hopCounterparty direction tx] by
                      simp [List.append_assoc]]
                    refine hnd'.append (List.nodup_singleton _) ?_
                    intro a ha ha'
                    rcases List.mem_singleton.mp ha' with rfl
                    apply hnw
                    rcases List.mem_append.mp ha with ha | ha
                    · exact hexp' _ ha
                    · obtain ⟨q, hq, hqe⟩ := List.mem_map.mp ha
                      rw [← hqe]
                      exact hqw' q hq
                  · intro w hw
                    exact List.mem_append_left _ (hexp' w hw)
                  · intro q hq
                    rcases List.mem_append.mp hq with hq | hq
                    · exact List.mem_append_left _ (hqw' q hq)
                    · rcases List.mem_singleton.mp hq with rfl
                      exact List.mem_append_right _ (List.mem_singleton_self _)
                  · intro q hq
                    rcases List.mem_append.mp hq with hq | hq
                    · exact fun w hw => List.mem_append_left _ (hqc' q hq w hw)
                    · rcases List.mem_singleton.mp hq with rfl
                      intro w hw
                      rcases List.mem_append.mp hw with hw | hw
                      · exact List.mem_append_left _ (hchaincur w hw)
                      · rcases List.mem_singleton.mp hw with rfl
                        exact List.mem_append_left _ hcw
                  · intro q hq
                    rcases List.mem_append.mp hq with hq | hq
                    · exact hql' q hq
                    · rcases List.mem_singleton.mp hq with rfl
                      simp [hlencur]
                · -- counterparty would exceed max depth: dequeue and continue
                  exact ih rest visited (explored ++ [current.wallet]) circular o h
                    hnd' hexp' hqw' hqc' hql'

theorem multiHopPatch_base (cv : ChainView) (now : Nat) (flowType newType : String)
    (res : MHResult) :
    (multiHopPatch cv now flowType newType res).classificationLevel = some res.level ∧
    (multiHopPatch cv now flowType newType res).hopChain
      = some (Json.arr (res.chain.map Json.str)) ∧
    (multiHopPatch cv now flowType newType res).intermediaryWallet
      = res.chain.head?.map some ∧
    (multiHopPatch cv now flowType newType res).analysisTimestamp = some (some now) ∧
    (multiHopPatch cv now flowType newType res).dataSource = some "enhanced" := by
  unfold multiHopPatch
  split
  · exact ⟨rfl, rfl, rfl, rfl, rfl⟩
  · split
    · exact ⟨rfl, rfl, rfl, rfl, rfl⟩
    · exact ⟨rfl, rfl, rfl, rfl, rfl⟩

/-- **C4**: every hit the multi-hop BFS returns carries a positive level
`L`, a hop chain of exactly `L` wallet addresses not containing the final
node-operator wallet, and the row update built from it writes that chain
as the `hop_chain` JSON array with `intermediary_wallet` equal to its
first element and `classification_level = L`. -/
theorem multihop_writeback_invariants (cv : ChainView) (cfg : EnhConfig)
    (startWallet : String) (direction : Dir)
    (startBlockHeight startTimestamp maxDepth fuel : Nat)
    (visitedWallets : List String) (now : Nat) (flowType : String) (r : FlowRow)
    (hstart : startWallet ∈ visitedWallets)
    (o : BfsOutcome) (res : MHResult)
    (ho : analyzeMultiHop cv cfg startWallet direction startBlockHeight startTimestamp
        maxDepth fuel visitedWallets = some o)
    (hres : o.result = some res) :
    0 < res.level ∧
    res.chain.length = res.level ∧
    res.nodeWallet ∉ res.chain ∧
    ∃ h0, res.chain.head? = some h0 ∧
      (applyPatch (multiHopPatch cv now flowType "node_operator" res) r).hop_chain
        = some (Json.arr (res.chain.map Json.str)) ∧
      (applyPatch (multiHopPatch cv now flowType "node_operator" res) r).intermediary_wallet
        = some h0 ∧
      (applyPatch (multiHopPatch cv now flowType "node_operator" res) r).classification_level
        = res.level := by
  have hinv := bfsLoop_inv cv cfg direction startBlockHeight startTimestamp maxDepth fuel
    [{ wallet := startWallet, depth := 0, chain := [], txids := [] }]
    visitedWallets [] 0 o ho (by simp)
    (by intro w hw; cases hw)
    (by
      intro q hq
      rw [List.mem_singleton] at hq
      subst hq
      exact hstart)
    (by
      intro q hq
      rw [List.mem_singleton] at hq
      subst hq
      intro w hw
      exact absurd hw (List.not_mem_nil w))
    (by
      intro q hq
      rw [List.mem_singleton] at hq
      subst hq
      rfl)
  obtain ⟨hpos, hlen, hnmem⟩ := hinv.2 res hres
  obtain ⟨h0, tl, hch⟩ : ∃ h0 tl, res.chain = h0 :: tl := by
    cases hc : res.chain with
    | nil => rw [hc] at hlen; simp at hlen; omega
    | cons a l => exact ⟨a, l, rfl⟩
  have hp := multiHopPatch_base cv now flowType "node_operator" res
  refine ⟨hpos, hlen, hnmem, h0, by rw [hch]; rfl, ?_, ?_, ?_⟩
  · unfold applyPatch
    rw [hp.2.1]
    simp [storeDetails, Json.truthy]
  · unfold applyPatch
    rw [hp.2.2.1, hch]
    rfl
  · unfold applyPatch
    rw [hp.1]
    rfl

/-- A chain view with a two-hop path `U1 → V1 → N1` ending at the current
node operator `N1`. -/
def cvHit : ChainView :=
  { isNodeOp := fun w => w == "N1"
    nodeDetails := fun w =>
      if w == "N1" then some (3, Json.obj [("CUMULUS", Json.num 3)]) else none
    coinbase := fun _ _ _ => { hasCoinbase := false }
    histConnOut := fun _ _ => { found := false }
    histConnIn := fun _ _ => { found := false }
    nextTxFrom := fun w _ _ =>
      if w == "U1" then
        some { txid := "ta", fromAddress := "U1", toAddress := "V1",
               blockHeight := 1010, amount := 1 }
      else if w == "V1" then
        some { txid := "tb", fromAddress := "V1", toAddress := "N1",
               blockHeight := 1020, amount := 1 }
      else none
    prevTxTo := fun _ _ _ => none }

/-- The hit the BFS finds on `cvHit` from `U1`. -/
def wRes : MHResult :=
  { level := 2, chain := ["U1", "V1"], nodeWallet := "N1", txids := ["ta", "tb"]
    detectionMethod := "current_api", status := "active" }

/-- The full BFS outcome on `cvHit` from `U1` at depth 2. -/
def oHit : BfsOutcome :=
  { result := some wRes, explored := ["U1", "V1"], circular := 0, visited := ["U1", "V1"] }

theorem multihop_writeback_invariants_witness :
    0 < wRes.level ∧
    wRes.chain.length = wRes.level ∧
    wRes.nodeWallet ∉ wRes.chain ∧
    ∃ h0, wRes.chain.head? = some h0 ∧
      (applyPatch (multiHopPatch cvHit 999 "buying" "node_operator" wRes) wUnknownRow).hop_chain
        = some (Json.arr (wRes.chain.map Json.str)) ∧
      (applyPatch (multiHopPatch cvHit 999 "buying" "node_operator" wRes)
          wUnknownRow).intermediary_wallet = some h0 ∧
      (applyPatch (multiHopPatch cvHit 999 "buying" "node_operator" wRes)
          wUnknownRow).classification_level = wRes.level :=
  multihop_writeback_invariants cvHit cfgOn "U1" .outbound 1000 100000 2 10 ["U1"] 999
    "buying" wUnknownRow (List.mem_singleton_self "U1") oHit wRes rfl rfl

/-- **C8**: within a single BFS traversal no wallet is ever expanded
(dequeued and explored) twice — the log of dequeued wallets has no
duplicates — because a counterparty already in the visited set is skipped
(with the circular-detections counter bumped, per the corresponding
branch of `bfsLoop`) instead of being enqueued. -/
theorem bfs_never_expands_twice (cv : ChainView) (cfg : EnhConfig)
    (startWallet : String) (direction : Dir)
    (startBlockHeight startTimestamp maxDepth fuel : Nat)
    (visitedWallets : List String) (o : BfsOutcome)
    (hstart : startWallet ∈ visitedWallets)
    (ho : analyzeMultiHop cv cfg startWallet direction startBlockHeight startTimestamp
        maxDepth fuel visitedWallets = some o) :
    o.explored.Nodup :=
  (bfsLoop_inv cv cfg direction startBlockHeight startTimestamp maxDepth fuel
    [{ wallet := startWallet, depth := 0, chain := [], txids := [] }]
    visitedWallets [] 0 o ho (by simp)
    (by intro w hw; cases hw)
    (by
      intro q hq
      rw [List.mem_singleton] at hq
      subst hq
      exact hstart)
    (by
      intro q hq
      rw [List.mem_singleton] at hq
      subst hq
      intro w hw
      exact absurd hw (List.not_mem_nil w))
    (by
      intro q hq
      rw [List.mem_singleton] at hq
      subst hq
      rfl)).1

/-- A chain view with the circular path `U1 → V1 → U1`. -/
def cvLoop : ChainView :=
  { isNodeOp := fun _ => false
    nodeDetails := fun _ => none
    coinbase := fun _ _ _ => { hasCoinbase := false }
    histConnOut := fun _ _ => { found := false }
    histConnIn := fun _ _ => { found := false }
    nextTxFrom := fun w _ _ =>
      if w == "U1" then
        some { txid := "tc", fromAddress := "U1", toAddress := "V1",
               blockHeight := 1010, amount := 1 }
      else if w == "V1" then
        some { txid := "td", fromAddress := "V1", toAddress := "U1",
               blockHeight := 1020, amount := 1 }
      else none
    prevTxTo := fun _ _ _ => none }

/-- The BFS outcome on the circular view: no hit, both wallets explored
once, one circular detection. -/
def oLoop : BfsOutcome :=
  { result := none, explored := ["U1", "V1"], circular := 1, visited := ["U1", "V1"] }

theorem bfs_never_expands_twice_witness : oLoop.explored.Nodup :=
  bfs_never_expands_twice cvLoop cfgOn "U1" .outbound 1000 100000 2 10 ["U1"] oLoop
    (List.mem_singleton_self "U1") rfl
